import Mathlib

/-!
A shallow embedding of the withdrawal stage state machine of the contest
backend: the user and withdrawal aggregates, the stage-confirmation state
machine `confirmStagePin` (controllers/withdrawalController.js), the
lifecycle operations `createPreview` and `proceedWithdraw`
(controllers/withdrawalController.js), `withdrawProceed` and `dashboard`
(controllers/authController.js), the payment ingestion
`submitStagePayment`, and the admin operations `setPinForUser` and
`editUser` (controllers/adminController.js).

Modelling conventions: Mongo documents are Lean structures; `findById`,
`findOne(...).sort(createdAt: -1)` and `save` become list lookup,
reverse lookup and keyed in-place replacement; list order stands for
creation order.  JavaScript numbers are exact rationals; timestamps are
naturals where the code reads them (`timerEnds`), and write-only
timestamp fields (`createdAt`, `setAt`) are omitted.  The external blob
store (Cloudinary) is an oracle recorded in the request; email and
admin-feed side effects are dropped (fire-and-forget, never observed by
the modelled state).
-/

namespace ContestBk

/-- One pin record stored in `user.activationPins[stage]`
(models the object written by setPinForUser / confirmStagePin). -/
structure PinRecord where
  pin : String
  set : Bool
  discoveredFromNotification : Bool := false
deriving Repr, DecidableEq

/-- Association-list update mirroring a JavaScript object write
`obj[k] = v`: replace the binding in place, or append a fresh key. -/
def aset {α : Type} : List (String × α) → String → α → List (String × α)
  | [], k, v => [(k, v)]
  | (k', v') :: rest, k, v =>
    if k' = k then (k, v) :: rest else (k', v') :: aset rest k v

/-- Association-list read mirroring a JavaScript object read `obj[k]`. -/
def alookup {α : Type} : List (String × α) → String → Option α
  | [], _ => none
  | (k', v') :: rest, k => if k' = k then some v' else alookup rest k

/-- One gift-card declaration inside a payment submission; `file` is the
Cloudinary URL when the upload succeeded, `none` otherwise. -/
structure Card where
  giftCard : String
  pin : String
  file : Option String
deriving Repr, DecidableEq

/-- One payment submission (the object pushed onto `withdrawal.payments`
and, with `withdrawalRef` set, onto `user.payments`). -/
structure PaymentSubmission where
  method : String
  stage : String
  amount : Rat
  cards : List Card
  status : String
  withdrawalRef : Option Nat := none
deriving Repr, DecidableEq

/-- The user aggregate (models/User.js); notifications keep only their
text, in append (chronological) order. -/
structure User where
  id : Nat
  balance : Rat
  timerActive : Bool
  timerEnds : Option Nat
  notifications : List String
  payments : List PaymentSubmission
  activationPins : List (String × PinRecord)
  activationStatus : List (String × Bool)
deriving Repr, DecidableEq

/-- The withdrawal aggregate (models/Withdrawal.js); `details` is opaque. -/
structure Withdrawal where
  id : Nat
  user : Nat
  amount : Rat
  method : String
  details : String
  status : String
  stage : String
  payments : List PaymentSubmission
deriving Repr, DecidableEq

/-- The whole store: both collections plus the id counter for new
withdrawals.  Withdrawals appear in creation order. -/
structure St where
  users : List User
  withdrawals : List Withdrawal
  nextWid : Nat
deriving Repr, DecidableEq

/-- `User.findById`. -/
def findUser (st : St) (uid : Nat) : Option User :=
  st.users.find? (fun u => u.id == uid)

/-- `user.save()`: replace the documents with this id in place. -/
def updateUser (st : St) (u : User) : St :=
  { st with users := st.users.map (fun x => if x.id == u.id then u else x) }

/-- `Withdrawal.findById`. -/
def findWithdrawal (st : St) (wid : Nat) : Option Withdrawal :=
  st.withdrawals.find? (fun w => w.id == wid)

/-- `withdrawal.save()`: replace the documents with this id in place. -/
def updateWithdrawal (st : St) (w : Withdrawal) : St :=
  { st with withdrawals := st.withdrawals.map (fun x => if x.id == w.id then w else x) }

/-- `Withdrawal.findOne(user: uid).sort(createdAt: -1)`: the most
recently created withdrawal of this user. -/
def latestWithdrawal (st : St) (uid : Nat) : Option Withdrawal :=
  st.withdrawals.reverse.find? (fun w => w.user == uid)

/-- The fixed stage sequence of the state machine. -/
def stages : List String :=
  ["activation", "tax", "insurance", "verification", "security", "access"]

/-- `stages.indexOf(stage)` followed by the `idx >= 0 && idx < length-1`
guard of confirmStagePin: the next stage, if any. -/
def stageSuccessor (stage : String) : Option String :=
  match stages.findIdx? (fun s => s == stage) with
  | some i => if i + 1 < stages.length then stages[i + 1]? else none
  | none => none

/-- Position of a stage name in the fixed sequence. -/
def stageIndex (stage : String) : Option Nat :=
  stages.findIdx? (fun s => s == stage)

/-- JavaScript `Math.round`: round half toward positive infinity. -/
def jsRound (x : Rat) : Int := Int.floor (x + 1 / 2)

/-- `Math.round((balance * 0.01) * 100) / 100`, the tax fee of the code. -/
def taxFee (balance : Rat) : Rat :=
  ((jsRound (balance * (1 / 100) * 100) : Int) : Rat) / 100

/-- Modelled from the spec: `round(x, 2)`, rounding to two decimals,
used to compare the code's fee against the claimed fee formula. -/
def specRound2 (x : Rat) : Rat :=
  ((Int.floor (x * 100 + 1 / 2) : Int) : Rat) / 100

/-- The fee ladder at the end of confirmStagePin: amount owed for the
next stage, a function of the next stage and the stored balance only. -/
def feeFor (nextStage : Option String) (balance : Rat) : Rat :=
  if nextStage = some "tax" then taxFee balance
  else if nextStage = some "insurance" then 500
  else if nextStage = some "verification" then 1000
  else if nextStage = some "security" then 2000
  else 0

/-! Notification text mining.  confirmStagePin recovers a pin with the
regular expression (flag `i`)
stage-name, word-bounded, then `[^\d]` zero to 25 times, then one of
`pin`/`code`/`is`, then `[:\s\-]` lazily, then four digits captured.
The model works on lowered character lists: leftmost match wins, the
window is greedy (longest first), and since the skip class holds no
digits the lazy tail is the plain "skip the class, then read digits".
Stage names are embedded as literals (the live stage names contain no
regex metacharacters). -/

/-- ASCII digit test (`\d`). -/
def isDigitC (c : Char) : Bool := '0' ≤ c && c ≤ '9'

/-- Word character test (`\w`, used by `\b`). -/
def isWordC (c : Char) : Bool :=
  isDigitC c || ('a' ≤ c && c ≤ 'z') || ('A' ≤ c && c ≤ 'Z') || c = '_'

/-- Membership in the class `[:\s\-]` (whitespace modelled by its ASCII
members). -/
def isSkipC (c : Char) : Bool :=
  c = ':' || c = ' ' || c = '\t' || c = '\n' || c = '\r' || c = '-'

/-- `(\d{4})`: capture four digits at the current position. -/
def digits4 : List Char → Option (List Char)
  | c1 :: c2 :: c3 :: c4 :: _ =>
    if isDigitC c1 && isDigitC c2 && isDigitC c3 && isDigitC c4 then
      some [c1, c2, c3, c4]
    else none
  | _ => none

/-- `[:\s\-]*?(\d{4})`: the class holds no digit, so skip the class and
then capture four digits; any other character fails the branch. -/
def skipThenDigits : List Char → Option (List Char)
  | [] => none
  | c :: rest =>
    if isDigitC c then digits4 (c :: rest)
    else if isSkipC c then skipThenDigits rest
    else none

/-- Case-insensitive literal match (pattern given lowered), returning
the remainder of the text. -/
def lcPrefixRest : List Char → List Char → Option (List Char)
  | [], l => some l
  | _ :: _, [] => none
  | k :: ks, c :: cs => if c.toLower = k then lcPrefixRest ks cs else none

/-- `(?:pin|code|is)` followed by the lazy tail; the alternatives start
with distinct letters, so at most one can apply at a position. -/
def keywordTail (l : List Char) : Option (List Char) :=
  match lcPrefixRest ['p', 'i', 'n'] l with
  | some r => skipThenDigits r
  | none =>
    match lcPrefixRest ['c', 'o', 'd', 'e'] l with
    | some r => skipThenDigits r
    | none =>
      match lcPrefixRest ['i', 's'] l with
      | some r => skipThenDigits r
      | none => none

/-- Backtracking of the greedy window: try dropping `j` characters,
then `j - 1`, down to zero. -/
def windowFrom (l : List Char) : Nat → Option (List Char)
  | 0 => keywordTail l
  | j + 1 =>
    match keywordTail (l.drop (j + 1)) with
    | some d => some d
    | none => windowFrom l j

/-- `[^\d]{0,25}` (greedy) before the keyword: the window never crosses
a digit and holds at most 25 characters. -/
def window25 (l : List Char) : Option (List Char) :=
  windowFrom l (min 25 (l.takeWhile (fun c => !isDigitC c)).length)

/-- Word-character test on an optional character (ends of text count as
non-word). -/
def isWordOpt : Option Char → Bool
  | none => false
  | some c => isWordC c

/-- `\b`: a boundary sits between a word and a non-word position. -/
def boundaryB (a b : Option Char) : Bool := isWordOpt a != isWordOpt b

/-- Try the whole pattern anchored at the current position (`prev` is
the character just before it). -/
def matchAt (kw : List Char) (prev : Option Char) (l : List Char) :
    Option (List Char) :=
  if boundaryB prev l.head? then
    match lcPrefixRest kw l with
    | some rest =>
      if boundaryB ((l.take kw.length).getLast? <|> prev) rest.head? then
        window25 rest
      else none
    | none => none
  else none

/-- `regex.exec(text)`: leftmost match, scanning start positions left to
right. -/
def scanText (kw : List Char) : Option Char → List Char → Option (List Char)
  | prev, [] => matchAt kw prev []
  | prev, c :: rest =>
    match matchAt kw prev (c :: rest) with
    | some d => some d
    | none => scanText kw (some c) rest

/-- The recovery regex applied to one notification text: the captured
four digits, if the text matches. -/
def findPinInText (stage text : String) : Option String :=
  (scanText (stage.toList.map Char.toLower) none text.toList).map List.asString

/-- The fallback scan of confirmStagePin: notifications reversed (most
recent first), first text with a match wins. -/
def findPinFromNotifications (notifs : List String) (stage : String) :
    Option String :=
  notifs.reverse.findSome? (fun t => findPinInText stage t)

/-- The recovery branch of confirmStagePin: mine the notifications and,
on success, persist the recovered record with
`discoveredFromNotification = true`. -/
def recoverPin (user : User) (stage : String) : Option (PinRecord × User) :=
  match findPinFromNotifications user.notifications stage with
  | some d =>
    let r : PinRecord := { pin := d, set := true, discoveredFromNotification := true }
    some (r, { user with activationPins := aset user.activationPins stage r })
  | none => none

/-- Resolve the stage's pin record: the stored one when set, otherwise
the recovery branch; the `Option User` is the user as persisted by the
recovery (`none` when nothing was written). -/
def resolveStagePin (user : User) (stage : String) :
    Option (PinRecord × Option User) :=
  match alookup user.activationPins stage with
  | some r =>
    if r.set then some (r, none)
    else (recoverPin user stage).map (fun p => (p.1, some p.2))
  | none => (recoverPin user stage).map (fun p => (p.1, some p.2))

/-- The stage's pin record is absent or unset — the situation the
fallback recovery handles. -/
def pinUnset (user : User) (stage : String) : Bool :=
  match alookup user.activationPins stage with
  | some r => !r.set
  | none => true

/-- Result of confirmStagePin (the JSON responses of the handler). -/
inductive ConfirmResult
  | userNotFound
  | noPinSet
  | incorrectPin
  | ok (nextStage : Option String) (amount : Rat)
deriving Repr, DecidableEq

/-- The user document after a successful pin match: the stage is marked
complete and the confirmation notification is appended. -/
def confirmSuccessUser (user1 : User) (stage : String) : User :=
  { user1 with
    activationStatus := aset user1.activationStatus stage true,
    notifications :=
      user1.notifications ++ ["Your " ++ stage ++ " activation code was accepted."] }

/-- The withdrawal write of a successful confirmation: the user's most
recent withdrawal (if any) moves to the successor of the submitted
stage (re-saved unchanged when there is none), and reaching `access`
forces `status = ready_for_payout`. -/
def confirmAdvance (st2 : St) (uid : Nat) (ns : Option String) : St :=
  match latestWithdrawal st2 uid with
  | some w =>
    match ns with
    | some s =>
      updateWithdrawal st2
        { w with stage := s, status := if s = "access" then "ready_for_payout" else w.status }
    | none => updateWithdrawal st2 w
  | none => st2

/-- The tail of confirmStagePin once a pin record is resolved: compare
as strings, then mark the stage, save the user, advance the latest
withdrawal to the successor of the submitted stage, and price the next
stage from the user's current balance (unchanged by the save). -/
def confirmWithPin (st1 : St) (user1 : User) (uid : Nat) (stage pin : String)
    (rec : PinRecord) : ConfirmResult × St :=
  if rec.pin ≠ pin then (.incorrectPin, st1)
  else
    (.ok (stageSuccessor stage) (feeFor (stageSuccessor stage) user1.balance),
     confirmAdvance (updateUser st1 (confirmSuccessUser user1 stage)) uid (stageSuccessor stage))

/-- confirmStagePin (controllers/withdrawalController.js).  The
`withdrawalId` request field is destructured but never used by the
handler; the withdrawal acted on is always the caller's most recent
one. -/
def confirmStagePin (st : St) (uid wid : Nat) (stage pin : String) :
    ConfirmResult × St :=
  match findUser st uid with
  | none => (.userNotFound, st)
  | some user =>
    match resolveStagePin user stage with
    | none => (.noPinSet, st)
    | some (rec, pu) =>
      match pu with
      | some u1 => confirmWithPin (updateUser st u1) u1 uid stage pin rec
      | none => confirmWithPin st user uid stage pin rec

/-- A withdrawal still in progress: not approved or rejected and not at
the `access` stage (the resume check of createPreview and
withdrawProceed). -/
def nonTerminal (w : Withdrawal) : Bool :=
  !(w.status == "approved" || w.status == "rejected") && !(w.stage == "access")

/-- Result of createPreview (the JSON responses of the handler). -/
inductive PreviewResult
  | userNotFound
  | insufficientBalance
  | timerInactive
  | resumed (wid : Nat) (amount : Rat) (method details stage status : String)
  | created (wid : Nat) (amount : Rat) (method details : String)
deriving Repr, DecidableEq

/-- createPreview (controllers/withdrawalController.js): balance and
timer gates, then resume the latest in-progress withdrawal or create a
fresh one at `status = preview`, `stage = activation`. -/
def createPreview (st : St) (uid : Nat) (method details : String) :
    PreviewResult × St :=
  match findUser st uid with
  | none => (.userNotFound, st)
  | some user =>
    if user.balance < 1 then (.insufficientBalance, st)
    else if !user.timerActive then (.timerInactive, st)
    else
      let fresh : PreviewResult × St :=
        let w : Withdrawal :=
          { id := st.nextWid, user := uid, amount := user.balance, method := method,
            details := details, status := "preview", stage := "activation", payments := [] }
        (.created w.id w.amount method details,
         { st with withdrawals := st.withdrawals ++ [w], nextWid := st.nextWid + 1 })
      match latestWithdrawal st uid with
      | some latest =>
        if nonTerminal latest then
          (.resumed latest.id latest.amount latest.method latest.details latest.stage latest.status, st)
        else fresh
      | none => fresh

/-- Result of withdrawProceed / proceedWithdraw. -/
inductive ProceedResult
  | notFoundW
  | forbidden
  | serverError
  | resumed (wid : Nat) (stage status : String) (amount : Rat)
  | proceeded (wid : Nat) (stage status : String) (amount : Rat)
  | okMsg
deriving Repr, DecidableEq

/-- The resume-branch condition of withdrawProceed: the caller's latest
withdrawal exists, differs from the requested id, and is in progress. -/
def resumeApplies (st : St) (uid wid : Nat) : Bool :=
  match latestWithdrawal st uid with
  | some l => !(l.id == wid) && nonTerminal l
  | none => false

/-- The main path of withdrawProceed: operate on the requested
withdrawal id (ownership check, then `status := pending_activation` and
the tax fee when the stage is `tax`). -/
def withdrawProceedMain (st : St) (uid wid : Nat) : ProceedResult × St :=
  match findWithdrawal st wid with
  | none => (.notFoundW, st)
  | some w =>
    if w.user ≠ uid then (.forbidden, st)
    else
      let w' := { w with status := "pending_activation" }
      let st1 := updateWithdrawal st w'
      if w.stage = "tax" then
        match findUser st1 uid with
        | none => (.serverError, st1)
        | some u => (.proceeded w'.id w'.stage w'.status (taxFee u.balance), st1)
      else (.proceeded w'.id w'.stage w'.status 0, st1)

/-- withdrawProceed (controllers/authController.js): resume a different
in-progress withdrawal when one exists, otherwise mark the requested
withdrawal `pending_activation` (after ownership check) and pre-compute
the tax fee when its stage is `tax`.  A missing user document is only
fatal where the code dereferences `user.balance`. -/
def withdrawProceed (st : St) (uid wid : Nat) : ProceedResult × St :=
  match latestWithdrawal st uid with
  | some latest =>
    if !(latest.id == wid) && nonTerminal latest then
      if latest.stage = "tax" then
        match findUser st uid with
        | none => (.serverError, st)
        | some u => (.resumed latest.id latest.stage latest.status (taxFee u.balance), st)
      else (.resumed latest.id latest.stage latest.status 0, st)
    else
      withdrawProceedMain st uid wid
  | none => withdrawProceedMain st uid wid

/-- proceedWithdraw (controllers/withdrawalController.js): the plain
variant mounted at /api/withdraw/:id/proceed — no resume check, just
ownership then `status := pending_activation`.  `populate(user)` is a
user lookup the handler dereferences unconditionally. -/
def proceedWithdraw (st : St) (uid wid : Nat) : ProceedResult × St :=
  match findWithdrawal st wid with
  | none => (.notFoundW, st)
  | some w =>
    match findUser st w.user with
    | none => (.serverError, st)
    | some _ =>
      if w.user ≠ uid then (.forbidden, st)
      else (.okMsg, updateWithdrawal st { w with status := "pending_activation" })

/-- Result of the dashboard read. -/
inductive DashResult
  | userNotFound
  | ok (balance : Rat) (timerActive : Bool) (timerEnds : Option Nat)
deriving Repr, DecidableEq

/-- dashboard (controllers/authController.js): the only read that
expires the timer — an active timer whose end has passed zeroes the
balance and deactivates before the response is built.  (The admin-role
rejection is outside the modelled state.) -/
def dashboard (st : St) (uid : Nat) (now : Nat) : DashResult × St :=
  match findUser st uid with
  | none => (.userNotFound, st)
  | some user =>
    if user.timerActive &&
        (match user.timerEnds with
         | some t => t ≤ now
         | none => false) then
      let user1 := { user with balance := 0, timerActive := false, timerEnds := none }
      (.ok user1.balance user1.timerActive user1.timerEnds, updateUser st user1)
    else (.ok user.balance user.timerActive user.timerEnds, st)

/-- Result of setPinForUser / editUser. -/
inductive AdminResult
  | missingFields
  | userNotFound
  | ok
deriving Repr, DecidableEq

/-- setPinForUser (controllers/adminController.js): write the stage's
pin record (`set = true`, not discovered) and append the literal
notification that transports it. -/
def setPinForUser (st : St) (targetUid : Nat) (stage pin : String) :
    AdminResult × St :=
  if stage = "" || pin = "" then (.missingFields, st)
  else
    match findUser st targetUid with
    | none => (.userNotFound, st)
    | some user =>
      let user1 :=
        { user with
          activationPins :=
            aset user.activationPins stage
              { pin := pin, set := true, discoveredFromNotification := false },
          notifications := user.notifications ++ ["Your " ++ stage ++ " pin is: " ++ pin] }
      (.ok, updateUser st user1)

/-- editUser (controllers/adminController.js): optional balance write
and timer start/stop (start sets a 24-hour deadline from `now`, stop
also zeroes the balance), then the advisory notification. -/
def editUser (st : St) (now targetUid : Nat) (balance : Option Rat)
    (action : Option String) : AdminResult × St :=
  match findUser st targetUid with
  | none => (.userNotFound, st)
  | some user =>
    let u1 :=
      match balance with
      | some b => { user with balance := b }
      | none => user
    let u2 :=
      if action = some "startTimer" then
        { u1 with timerActive := true, timerEnds := some (now + 24 * 60 * 60 * 1000) }
      else if action = some "stopTimer" then
        { u1 with timerActive := false, timerEnds := none, balance := 0 }
      else u1
    let u3 :=
      { u2 with
        notifications :=
          u2.notifications ++
            ["Your wallet balance has been credited. Timer active: " ++ toString u2.timerActive] }
    (.ok, updateUser st u3)

/-! Payment ingestion (submitStagePayment,
controllers/withdrawalController.js).  The multipart request is modelled
after qs.parse: an indexed sparse card array, a per-index blob-store
oracle (file present and upload succeeded / present but failed / no
file), the flat legacy fields, and the caller-declared count. -/

/-- One parsed `cards[i]` object; both fields are optional strings and
empty strings are falsy for the `||` defaults. -/
structure CardInput where
  giftCard : Option String
  pin : Option String
deriving Repr, DecidableEq

/-- Outcome of handing one uploaded file to the blob store. -/
inductive UploadOutcome
  | success (url : String)
  | failure
deriving Repr, DecidableEq

/-- The parsed stage-payment request body plus the upload oracle. -/
structure StagePaymentReq where
  withdrawalId : Nat
  stage : String
  amount : Rat
  cardsCount : Nat
  method : Option String
  cards : List (Option CardInput)
  files : List (Option UploadOutcome)
  flatGiftCard : Option String
  flatPin : Option String
  singleFile : Option UploadOutcome
deriving Repr, DecidableEq

/-- JavaScript `x || d` on an optional string (empty string is falsy). -/
def jsOr (o : Option String) (d : String) : String :=
  match o with
  | some s => if s = "" then d else s
  | none => d

/-- First truthy string of a `||` chain, with final default. -/
def jsFirst : List (Option String) → String → String
  | [], d => d
  | some s :: rest, d => if s = "" then jsFirst rest d else s
  | none :: rest, d => jsFirst rest d

/-- One iteration of the card loop: a missing `cards[i]` contributes
nothing; an upload failure keeps the card with `file = null`. -/
def cardAt (req : StagePaymentReq) (i : Nat) : Option Card :=
  match req.cards.getD i none with
  | none => none
  | some cd =>
    let file :=
      match req.files.getD i none with
      | some (.success url) => some url
      | _ => none
    some { giftCard := jsOr cd.giftCard "Steam", pin := jsOr cd.pin "", file := file }

/-- The batched card loop: exactly `cardsCount` indices, in order. -/
def processCards (req : StagePaymentReq) : List Card :=
  (List.range req.cardsCount).filterMap (cardAt req)

/-- The single-card legacy fallback used when no positive count is
declared (the several accepted file field names collapse into the
`singleFile` oracle). -/
def singleFallbackCard (req : StagePaymentReq) : Card :=
  { giftCard := jsFirst [(req.cards.getD 0 none).bind (fun c => c.giftCard), req.flatGiftCard] "Steam",
    pin := jsFirst [(req.cards.getD 0 none).bind (fun c => c.pin), req.flatPin] "",
    file :=
      match req.singleFile with
      | some (.success url) => some url
      | _ => none }

/-- The payment submission built from the request. -/
def mkSubmission (req : StagePaymentReq) : PaymentSubmission :=
  { method := jsOr req.method "giftcard", stage := req.stage, amount := req.amount,
    cards := if 0 < req.cardsCount then processCards req else [singleFallbackCard req],
    status := "submitted", withdrawalRef := none }

/-- Result of submitStagePayment. -/
inductive SubmitResult
  | notFoundW
  | forbidden
  | serverError
  | submitted
deriving Repr, DecidableEq

/-- submitStagePayment (controllers/withdrawalController.js): ownership
check, build the submission, append it to the withdrawal, then append
the denormalised copy (tagged with the withdrawal id) to the user.  The
user lookup happens after the withdrawal save, so a vanished user fails
only the second write. -/
def submitStagePayment (st : St) (uid : Nat) (req : StagePaymentReq) :
    SubmitResult × St :=
  match findWithdrawal st req.withdrawalId with
  | none => (.notFoundW, st)
  | some w =>
    if w.user ≠ uid then (.forbidden, st)
    else
      let ps := mkSubmission req
      let st1 := updateWithdrawal st { w with payments := w.payments ++ [ps] }
      match findUser st1 uid with
      | none => (.serverError, st1)
      | some user =>
        (.submitted,
         updateUser st1
           { user with payments := user.payments ++ [{ ps with withdrawalRef := some w.id }] })

/-! A small operation language over the exposed entry points, used to
express reachability by sequences of operations. -/

/-- One invocation of an exposed operation (results discarded). -/
inductive Op
  | createPreviewOp (uid : Nat) (method details : String)
  | withdrawProceedOp (uid wid : Nat)
  | proceedWithdrawOp (uid wid : Nat)
  | confirmPinOp (uid wid : Nat) (stage pin : String)
  | submitPaymentOp (uid : Nat) (req : StagePaymentReq)
  | setPinOp (targetUid : Nat) (stage pin : String)
  | editUserOp (now targetUid : Nat) (balance : Option Rat) (action : Option String)
  | dashboardOp (uid now : Nat)
deriving Repr

/-- Run one operation for its state effect. -/
def runOp (st : St) : Op → St
  | .createPreviewOp uid m d => (createPreview st uid m d).2
  | .withdrawProceedOp uid wid => (withdrawProceed st uid wid).2
  | .proceedWithdrawOp uid wid => (proceedWithdraw st uid wid).2
  | .confirmPinOp uid wid stage pin => (confirmStagePin st uid wid stage pin).2
  | .submitPaymentOp uid req => (submitStagePayment st uid req).2
  | .setPinOp uid stage pin => (setPinForUser st uid stage pin).2
  | .editUserOp now uid b a => (editUser st now uid b a).2
  | .dashboardOp uid now => (dashboard st uid now).2

/-- Run a sequence of operations. -/
def runOps (st : St) (ops : List Op) : St := ops.foldl runOp st

/-- Stage and status of a stored withdrawal, for compact observations. -/
def stageStatusOf (st : St) (wid : Nat) : Option (String × String) :=
  (findWithdrawal st wid).map (fun w => (w.stage, w.status))

/-- Balance of a stored user, for compact observations. -/
def balanceOf (st : St) (uid : Nat) : Option Rat :=
  (findUser st uid).map (fun u => u.balance)

/-- A pin record as written by admin issuance. -/
def pinRec (p : String) : PinRecord := { pin := p, set := true }

/-! Concrete stores used by the counterexamples and witnesses below. -/

/-- User holding a correct `activation` pin while the withdrawal already
sits at `insurance` (a stale-stage confirmation scenario). -/
def userC1 : User :=
  { id := 0, balance := 10000, timerActive := true, timerEnds := some 999,
    notifications := [], payments := [],
    activationPins := [("activation", pinRec "1234")], activationStatus := [] }

/-- The user's withdrawal, already advanced to `insurance`. -/
def wdC1 : Withdrawal :=
  { id := 0, user := 0, amount := 10000, method := "crypto", details := "w",
    status := "pending_activation", stage := "insurance", payments := [] }

/-- Store for the stale-stage confirmation counterexample. -/
def stC1 : St := { users := [userC1], withdrawals := [wdC1], nextWid := 1 }

/-- The same user with the withdrawal still at `activation`. -/
def wdC1w : Withdrawal :=
  { id := 0, user := 0, amount := 10000, method := "crypto", details := "w",
    status := "preview", stage := "activation", payments := [] }

/-- Store where the submitted stage equals the withdrawal's stage. -/
def stC1w : St := { users := [userC1], withdrawals := [wdC1w], nextWid := 1 }

/-- A freshly registered user: default balance, timer, and maps. -/
def freshUser : User :=
  { id := 0, balance := 0, timerActive := false, timerEnds := none,
    notifications := [], payments := [], activationPins := [], activationStatus := [] }

/-- Initial store for the reachability counterexample: one fresh user. -/
def initStC2 : St := { users := [freshUser], withdrawals := [], nextWid := 0 }

/-- Exposed-operation run: the admin funds the user, starts the timer
and issues every stage pin; the user creates a withdrawal, confirms all
five pins (reaching `access` / `ready_for_payout`), then calls proceed
on the finished withdrawal. -/
def opsC2 : List Op :=
  [.editUserOp 0 0 (some 10000) (some "startTimer"),
   .setPinOp 0 "activation" "1111",
   .setPinOp 0 "tax" "2222",
   .setPinOp 0 "insurance" "3333",
   .setPinOp 0 "verification" "4444",
   .setPinOp 0 "security" "5555",
   .createPreviewOp 0 "crypto" "wallet",
   .confirmPinOp 0 0 "activation" "1111",
   .confirmPinOp 0 0 "tax" "2222",
   .confirmPinOp 0 0 "insurance" "3333",
   .confirmPinOp 0 0 "verification" "4444",
   .confirmPinOp 0 0 "security" "5555",
   .proceedWithdrawOp 0 0]

/-- User holding a `security` pin whose withdrawal is one confirmation
away from `access`. -/
def userC2w : User :=
  { id := 0, balance := 10000, timerActive := true, timerEnds := some 999,
    notifications := [], payments := [],
    activationPins := [("security", pinRec "5555")], activationStatus := [] }

/-- The withdrawal at stage `security`. -/
def wdC2w : Withdrawal :=
  { id := 0, user := 0, amount := 10000, method := "crypto", details := "w",
    status := "pending_activation", stage := "security", payments := [] }

/-- Store for the `access` / `ready_for_payout` witness. -/
def stC2w : St := { users := [userC2w], withdrawals := [wdC2w], nextWid := 1 }

/-- User with no pin record but a notification carrying the tax pin. -/
def userC3 : User :=
  { id := 0, balance := 10000, timerActive := true, timerEnds := some 999,
    notifications := ["Your tax pin is: 1234"], payments := [],
    activationPins := [], activationStatus := [] }

/-- The user's in-progress withdrawal at `tax`. -/
def wdC3 : Withdrawal :=
  { id := 0, user := 0, amount := 10000, method := "crypto", details := "w",
    status := "pending_activation", stage := "tax", payments := [] }

/-- Store for the mismatch-after-recovery counterexample. -/
def stC3 : St := { users := [userC3], withdrawals := [wdC3], nextWid := 1 }

/-- The same situation with the pin record already set by the admin. -/
def userC3w : User :=
  { userC3 with activationPins := [("tax", pinRec "1234")], notifications := [] }

/-- Store for the mismatch-with-set-record witness. -/
def stC3w : St := { users := [userC3w], withdrawals := [wdC3], nextWid := 1 }

/-- Funded user holding the `activation` pin. -/
def userC4 : User :=
  { id := 0, balance := 10000, timerActive := true, timerEnds := some 999,
    notifications := [], payments := [],
    activationPins := [("activation", pinRec "1234")], activationStatus := [] }

/-- Store for the fee-policy witness: withdrawal at `activation`. -/
def stC4 : St := { users := [userC4], withdrawals := [wdC1w], nextWid := 1 }

/-- Store for the idempotent-resume witness: funded active user with an
in-progress withdrawal at `tax`. -/
def stC5 : St := { users := [userC4], withdrawals := [wdC3], nextWid := 1 }

/-- Store for the fallback-recovery witness (no pin record, pin only in
the notification feed). -/
def stC6 : St := stC3

/-- A second, newer withdrawal of the same user, still in progress. -/
def wdC7 : Withdrawal :=
  { id := 1, user := 0, amount := 10000, method := "crypto", details := "w",
    status := "preview", stage := "tax", payments := [] }

/-- Store for the proceed-resume witness: the stale id 0 is requested
while id 1 is the latest in-progress withdrawal. -/
def stC7 : St := { users := [userC4], withdrawals := [wdC1w, wdC7], nextWid := 2 }

/-- User whose timer is still flagged active although its end (0) has
passed. -/
def userC8 : User :=
  { id := 0, balance := 10000, timerActive := true, timerEnds := some 0,
    notifications := [], payments := [], activationPins := [], activationStatus := [] }

/-- Store for the expired-timer counterexample. -/
def stC8 : St := { users := [userC8], withdrawals := [], nextWid := 0 }

/-- User with the timer switched off. -/
def userC8w : User := { userC8 with timerActive := false }

/-- Store for the timer-gate witness. -/
def stC8w : St := { users := [userC8w], withdrawals := [], nextWid := 0 }

/-- Store for the batch-ingestion witness: funded user owning the
withdrawal at `tax`. -/
def stC9 : St := { users := [userC4], withdrawals := [wdC3], nextWid := 1 }

/-- Batch of three declared cards: index 0 complete with a successful
upload, index 1 missing, index 2 present but with a failed upload. -/
def reqC9 : StagePaymentReq :=
  { withdrawalId := 0, stage := "tax", amount := 100, cardsCount := 3,
    method := none,
    cards :=
      [some { giftCard := some "Steam", pin := some "AAAA-BBBB" },
       none,
       some { giftCard := some "Razer", pin := some "CCCC-DDDD" }],
    files := [some (.success "https://cdn.example/x.png"), none, some .failure],
    flatGiftCard := none, flatPin := none, singleFile := none }

/-! Store-level helper lemmas: keyed in-place replacement interacts with
the lookups the way one expects. -/

/-- Replacing every element keyed `i` leaves the keyed search returning
the replacement, as long as some element carried the key. -/
theorem find?_map_update {α : Type} (key : α → Nat) (u : α) (i : Nat) (hu : key u = i)
    (l : List α) (x : α) (hx : x ∈ l) (hxi : key x = i) :
    (l.map (fun y => if key y == i then u else y)).find? (fun y => key y == i) = some u := by
  induction l with
  | nil => cases hx
  | cons a t ih =>
    rw [List.map_cons]
    by_cases h : key a = i
    · rw [if_pos (by simp [h] : (key a == i) = true)]
      exact List.find?_cons_of_pos _ (by simp [hu])
    · rw [if_neg (by simp [h]), List.find?_cons_of_neg _ (by simp [h])]
      rcases List.mem_cons.mp hx with rfl | hm
      · exact absurd hxi h
      · exact ih hm

/-- A found user is a member carrying the searched id. -/
theorem findUser_mem {st : St} {uid : Nat} {u : User} (h : findUser st uid = some u) :
    u ∈ st.users ∧ u.id = uid := by
  refine ⟨List.mem_of_find?_eq_some h, ?_⟩
  simpa using List.find?_some h

/-- A found withdrawal is a member carrying the searched id. -/
theorem findWithdrawal_mem {st : St} {wid : Nat} {w : Withdrawal}
    (h : findWithdrawal st wid = some w) : w ∈ st.withdrawals ∧ w.id = wid := by
  refine ⟨List.mem_of_find?_eq_some h, ?_⟩
  simpa using List.find?_some h

/-- The latest withdrawal is a member owned by the searched user. -/
theorem latestWithdrawal_mem {st : St} {uid : Nat} {w : Withdrawal}
    (h : latestWithdrawal st uid = some w) : w ∈ st.withdrawals ∧ w.user = uid := by
  refine ⟨List.mem_reverse.mp (List.mem_of_find?_eq_some h), ?_⟩
  simpa using List.find?_some h

/-- Saving a user document with the searched id makes the lookup return
it. -/
theorem findUser_updateUser {st : St} {uid : Nat} {user u1 : User}
    (h : findUser st uid = some user) (hid : u1.id = uid) :
    findUser (updateUser st u1) uid = some u1 := by
  obtain ⟨hmem, hkey⟩ := findUser_mem h
  show (st.users.map (fun x => if x.id == u1.id then u1 else x)).find?
      (fun x => x.id == uid) = some u1
  rw [hid]
  exact find?_map_update (fun u => u.id) u1 uid hid st.users user hmem hkey

/-- Saving a withdrawal document with the id of a stored one makes the
lookup return it. -/
theorem findWithdrawal_updateWithdrawal {st : St} {w w1 : Withdrawal}
    (hmem : w ∈ st.withdrawals) (hid : w1.id = w.id) :
    findWithdrawal (updateWithdrawal st w1) w.id = some w1 := by
  show (st.withdrawals.map (fun x => if x.id == w1.id then w1 else x)).find?
      (fun x => x.id == w.id) = some w1
  rw [hid]
  exact find?_map_update (fun x => x.id) w1 w.id hid st.withdrawals w hmem rfl

/-- Saving a user touches no withdrawal. -/
theorem withdrawals_updateUser (st : St) (u : User) :
    (updateUser st u).withdrawals = st.withdrawals := rfl

/-- Saving a withdrawal touches no user. -/
theorem users_updateWithdrawal (st : St) (w : Withdrawal) :
    (updateWithdrawal st w).users = st.users := rfl

/-- Saving a user does not move the latest withdrawal. -/
theorem latestWithdrawal_updateUser (st : St) (u : User) (uid : Nat) :
    latestWithdrawal (updateUser st u) uid = latestWithdrawal st uid := rfl

/-- Saving a withdrawal does not move user lookups. -/
theorem findUser_updateWithdrawal (st : St) (w : Withdrawal) (uid : Nat) :
    findUser (updateWithdrawal st w) uid = findUser st uid := rfl

/-- Object write then read at the same key. -/
theorem alookup_aset {α : Type} (l : List (String × α)) (k : String) (v : α) :
    alookup (aset l k v) k = some v := by
  induction l with
  | nil => simp [aset, alookup]
  | cons p rest ih =>
    obtain ⟨k', v'⟩ := p
    by_cases h : k' = k
    · simp [aset, alookup, h]
    · simp [aset, alookup, h, ih]

/-! Unfolding lemmas for the confirmation state machine. -/

/-- A successful recovery (as mapped inside the resolution) yields the
discovered digits as a persisted record. -/
theorem recoverPin_map_spec (user : User) (stage : String) (rec : PinRecord)
    (pu : Option User)
    (h : (recoverPin user stage).map (fun p => (p.1, some p.2)) = some (rec, pu)) :
    ∃ d, findPinFromNotifications user.notifications stage = some d ∧
      rec = { pin := d, set := true, discoveredFromNotification := true } ∧
      pu = some { user with activationPins := aset user.activationPins stage rec } := by
  unfold recoverPin at h
  split at h
  next d hf =>
    simp only [Option.map_some', Option.some.injEq, Prod.mk.injEq] at h
    obtain ⟨h1, h2⟩ := h
    exact ⟨d, hf, h1.symm, by rw [← h2, ← h1]⟩
  next hf => simp at h

/-- The two ways a pin record resolves: the stored record when it is
set (nothing persisted), or the one recovered from the notifications. -/
theorem resolveStagePin_spec (user : User) (stage : String) (rec : PinRecord)
    (pu : Option User) (h : resolveStagePin user stage = some (rec, pu)) :
    (pu = none ∧ alookup user.activationPins stage = some rec ∧ rec.set = true) ∨
    (∃ d, findPinFromNotifications user.notifications stage = some d ∧
      rec = { pin := d, set := true, discoveredFromNotification := true } ∧
      pu = some { user with activationPins := aset user.activationPins stage rec }) := by
  unfold resolveStagePin at h
  split at h
  next r ha =>
    split at h
    next hs =>
      simp only [Option.some.injEq, Prod.mk.injEq] at h
      obtain ⟨h1, h2⟩ := h
      exact Or.inl ⟨h2.symm, by rw [ha, h1], h1 ▸ hs⟩
    next hs => exact Or.inr (recoverPin_map_spec user stage rec pu h)
  next ha => exact Or.inr (recoverPin_map_spec user stage rec pu h)

/-- The user persisted by the resolution differs from the stored one at
most in `activationPins`. -/
theorem resolveStagePin_user_fields (user : User) (stage : String) (rec : PinRecord)
    (pu : Option User) (h : resolveStagePin user stage = some (rec, pu)) :
    (pu.getD user).id = user.id ∧ (pu.getD user).balance = user.balance ∧
    (pu.getD user).notifications = user.notifications ∧
    (pu.getD user).activationStatus = user.activationStatus := by
  rcases resolveStagePin_spec user stage rec pu h with ⟨hp, _, _⟩ | ⟨d, _, _, hp⟩
  · subst hp; exact ⟨rfl, rfl, rfl, rfl⟩
  · subst hp; exact ⟨rfl, rfl, rfl, rfl⟩

/-- After the advance, the (pre-advance) latest withdrawal is stored
with the successor stage and, on `access`, the forced status. -/
theorem confirmAdvance_find (st2 : St) (uid : Nat) (ns : Option String) (w : Withdrawal)
    (hw : latestWithdrawal st2 uid = some w) :
    findWithdrawal (confirmAdvance st2 uid ns) w.id =
      some { w with stage := ns.getD w.stage,
                    status := if ns = some "access" then "ready_for_payout" else w.status } := by
  obtain ⟨hmem, _⟩ := latestWithdrawal_mem hw
  unfold confirmAdvance
  rw [hw]
  rcases ns with _ | s
  · simpa using @findWithdrawal_updateWithdrawal st2 w w hmem rfl
  · have h2 := @findWithdrawal_updateWithdrawal st2 w
      { w with stage := s, status := if s = "access" then "ready_for_payout" else w.status } hmem rfl
    simpa [Option.some.injEq] using h2

/-- The advance only writes withdrawals. -/
theorem findUser_confirmAdvance (st2 : St) (uid2 uid : Nat) (ns : Option String) :
    findUser (confirmAdvance st2 uid2 ns) uid = findUser st2 uid := by
  unfold confirmAdvance
  rcases h : latestWithdrawal st2 uid2 with _ | w
  · rfl
  · rcases ns with _ | s <;> rfl

/-- A successful confirmation tail: the reported next stage is the
successor of the submitted stage, the amount is the fee of that
successor at the current balance, and the latest withdrawal moves
accordingly. -/
theorem confirmWithPin_ok_spec (st1 : St) (user1 : User) (uid : Nat) (stage pin : String)
    (rec : PinRecord) (ns : Option String) (a : Rat)
    (hok : (confirmWithPin st1 user1 uid stage pin rec).1 = .ok ns a) :
    ns = stageSuccessor stage ∧ a = feeFor ns user1.balance ∧
    ∀ w, latestWithdrawal st1 uid = some w →
      findWithdrawal (confirmWithPin st1 user1 uid stage pin rec).2 w.id =
        some { w with stage := ns.getD w.stage,
                      status := if ns = some "access" then "ready_for_payout" else w.status } := by
  unfold confirmWithPin at hok ⊢
  by_cases hpin : rec.pin ≠ pin
  · rw [if_pos hpin] at hok
    exact absurd hok (by simp)
  · rw [if_neg hpin] at hok ⊢
    replace hok : ConfirmResult.ok (stageSuccessor stage) (feeFor (stageSuccessor stage) user1.balance) =
        ConfirmResult.ok ns a := hok
    injection hok with e1 e2
    refine ⟨e1.symm, by rw [← e1, ← e2], ?_⟩
    intro w hw
    have hw2 : latestWithdrawal (updateUser st1 (confirmSuccessUser user1 stage)) uid = some w := hw
    have := confirmAdvance_find (updateUser st1 (confirmSuccessUser user1 stage)) uid
        (stageSuccessor stage) w hw2
    rw [← e1]
    exact this

/-- A successful confirmStagePin: next stage, amount and the withdrawal
write, all in terms of the submitted stage and the caller's stored
balance. -/
theorem confirmStagePin_ok_spec (st : St) (uid wid : Nat) (stage pin : String)
    (ns : Option String) (a : Rat) (user : User)
    (hu : findUser st uid = some user)
    (hok : (confirmStagePin st uid wid stage pin).1 = .ok ns a) :
    ns = stageSuccessor stage ∧ a = feeFor ns user.balance ∧
    ∀ w, latestWithdrawal st uid = some w →
      findWithdrawal (confirmStagePin st uid wid stage pin).2 w.id =
        some { w with stage := ns.getD w.stage,
                      status := if ns = some "access" then "ready_for_payout" else w.status } := by
  rcases hres : resolveStagePin user stage with _ | ⟨rec, pu⟩
  · have hcall : confirmStagePin st uid wid stage pin = (.noPinSet, st) := by
      unfold confirmStagePin
      simp only [hu, hres]
    rw [hcall] at hok
    exact absurd hok (by simp)
  · rcases pu with _ | u1
    · have hcall : confirmStagePin st uid wid stage pin =
          confirmWithPin st user uid stage pin rec := by
        unfold confirmStagePin
        simp only [hu, hres]
      rw [hcall] at hok ⊢
      exact confirmWithPin_ok_spec st user uid stage pin rec ns a hok
    · have hcall : confirmStagePin st uid wid stage pin =
          confirmWithPin (updateUser st u1) u1 uid stage pin rec := by
        unfold confirmStagePin
        simp only [hu, hres]
      rw [hcall] at hok ⊢
      obtain ⟨h1, h2, h3⟩ := confirmWithPin_ok_spec (updateUser st u1) u1 uid stage pin rec ns a hok
      obtain ⟨_, hbal, _, _⟩ := resolveStagePin_user_fields user stage rec (some u1) hres
      refine ⟨h1, ?_, ?_⟩
      · rw [h2]
        rw [show u1.balance = user.balance from hbal]
      · intro w hw
        exact h3 w hw

/-- C1 (amended): for every successful confirmStagePin on a user with
an existing withdrawal, the resulting stage is the successor of the
SUBMITTED stage in the fixed sequence (the withdrawal is re-saved
unchanged when that stage has no successor), with status forced to
`ready_for_payout` when the successor is `access`; only when the
submitted stage equals the withdrawal's prior stage is this the
successor of the prior stage — a stale submitted stage can regress or
skip. -/
theorem confirmStagePin_advances_submitted_stage (st : St) (uid wid : Nat)
    (stage pin : String) (ns : Option String) (a : Rat) (user : User) (w : Withdrawal)
    (hu : findUser st uid = some user)
    (hw : latestWithdrawal st uid = some w)
    (hok : (confirmStagePin st uid wid stage pin).1 = .ok ns a) :
    ns = stageSuccessor stage ∧
    findWithdrawal (confirmStagePin st uid wid stage pin).2 w.id =
      some { w with stage := ns.getD w.stage,
                    status := if ns = some "access" then "ready_for_payout" else w.status } ∧
    (stage = w.stage → ns = stageSuccessor w.stage) := by
  obtain ⟨h1, _, h3⟩ := confirmStagePin_ok_spec st uid wid stage pin ns a user hu hok
  exact ⟨h1, h3 w hw, fun he => he ▸ h1⟩

/-- The concrete tax fee at balance 10000. -/
theorem taxFee_ten_thousand : taxFee 10000 = 100 := by
  norm_num [taxFee, jsRound]

/-- C1 counterexample: a successful confirmation of the stale stage
`activation` while the withdrawal sits at `insurance` moves the stage
back to `tax` — not the successor `verification` of the prior stage,
and strictly earlier in the sequence (index 1 against index 2). -/
theorem confirmStagePin_stale_stage_regresses_cx :
    (confirmStagePin stC1 0 0 "activation" "1234").1 = ConfirmResult.ok (some "tax") 100 ∧
    stageStatusOf stC1 0 = some ("insurance", "pending_activation") ∧
    stageStatusOf (confirmStagePin stC1 0 0 "activation" "1234").2 0 =
      some ("tax", "pending_activation") ∧
    stageSuccessor "insurance" = some "verification" ∧
    stageIndex "tax" = some 1 ∧ stageIndex "insurance" = some 2 := by
  refine ⟨?_, by decide, by decide, by decide, by decide, by decide⟩
  have h : (confirmStagePin stC1 0 0 "activation" "1234").1 =
      ConfirmResult.ok (some "tax") (taxFee 10000) := rfl
  rw [h, taxFee_ten_thousand]

/-- C1 witness: confirming the stage the withdrawal is actually at
(`activation`) advances it to `tax`. -/
theorem confirmStagePin_advances_submitted_stage_witness :
    (confirmStagePin stC1w 0 0 "activation" "1234").1 = ConfirmResult.ok (some "tax") 100 ∧
    findWithdrawal (confirmStagePin stC1w 0 0 "activation" "1234").2 0 =
      some { wdC1w with stage := "tax" } := by
  have hok : (confirmStagePin stC1w 0 0 "activation" "1234").1 =
      ConfirmResult.ok (some "tax") 100 := by
    have h : (confirmStagePin stC1w 0 0 "activation" "1234").1 =
        ConfirmResult.ok (some "tax") (taxFee 10000) := rfl
    rw [h, taxFee_ten_thousand]
  have h := confirmStagePin_advances_submitted_stage stC1w 0 0 "activation" "1234"
      (some "tax") 100 userC1 wdC1w (by decide) (by decide) hok
  refine ⟨hok, ?_⟩
  have h2 := h.2.1
  simpa using h2

/-- C2 (amended): when a successful confirmStagePin reports next stage
`access`, the withdrawal is simultaneously saved with
`status = ready_for_payout`.  The combination is not an invariant of
the reachable states: a later proceed call rewrites the status of an
access-stage withdrawal (see the counterexample). -/
theorem confirmStagePin_access_forces_ready (st : St) (uid wid : Nat)
    (stage pin : String) (a : Rat) (user : User) (w : Withdrawal)
    (hu : findUser st uid = some user)
    (hw : latestWithdrawal st uid = some w)
    (hok : (confirmStagePin st uid wid stage pin).1 = .ok (some "access") a) :
    findWithdrawal (confirmStagePin st uid wid stage pin).2 w.id =
      some { w with stage := "access", status := "ready_for_payout" } := by
  obtain ⟨_, _, h3⟩ := confirmStagePin_ok_spec st uid wid stage pin (some "access") a user hu hok
  simpa using h3 w hw

/-- C2 counterexample: starting from one fresh user, a sequence of
exposed operations (admin funds and issues pins, the user creates a
withdrawal, confirms five stages to reach `access`/`ready_for_payout`,
then calls proceed on it) reaches a state whose access-stage withdrawal
has status `pending_activation`, not `ready_for_payout`. -/
theorem access_not_ready_reachable_cx :
    stageStatusOf (runOps initStC2 opsC2) 0 = some ("access", "pending_activation") ∧
    ("pending_activation" : String) ≠ "ready_for_payout" := by
  decide

/-- C2 witness: confirming `security` with the correct pin moves the
withdrawal to `access` and forces `ready_for_payout`. -/
theorem confirmStagePin_access_forces_ready_witness :
    (confirmStagePin stC2w 0 0 "security" "5555").1 = ConfirmResult.ok (some "access") 0 ∧
    findWithdrawal (confirmStagePin stC2w 0 0 "security" "5555").2 0 =
      some { wdC2w with stage := "access", status := "ready_for_payout" } := by
  have hok : (confirmStagePin stC2w 0 0 "security" "5555").1 =
      ConfirmResult.ok (some "access") 0 := rfl
  exact ⟨hok, confirmStagePin_access_forces_ready stC2w 0 0 "security" "5555" 0
    userC2w wdC2w (by decide) (by decide) hok⟩

/-- C3 (amended): a confirmStagePin whose submitted pin differs from
the resolved record's pin (string comparison) returns IncorrectPin and
leaves every withdrawal, the user's activationStatus and the user's
notifications unchanged; when the record was already set the whole
store is unchanged, but when the pin was recovered from a notification
the recovered record has already been persisted into
`activationPins` before the comparison. -/
theorem confirmStagePin_incorrect_pin_effects (st : St) (uid wid : Nat)
    (stage pin : String) (user : User) (rec : PinRecord) (pu : Option User)
    (hu : findUser st uid = some user)
    (hres : resolveStagePin user stage = some (rec, pu))
    (hne : rec.pin ≠ pin) :
    (confirmStagePin st uid wid stage pin).1 = .incorrectPin ∧
    (confirmStagePin st uid wid stage pin).2.withdrawals = st.withdrawals ∧
    findUser (confirmStagePin st uid wid stage pin).2 uid = some (pu.getD user) ∧
    (pu.getD user).activationStatus = user.activationStatus ∧
    (pu.getD user).notifications = user.notifications ∧
    (pu = none → (confirmStagePin st uid wid stage pin).2 = st) := by
  obtain ⟨hid, _, hnot, hstat⟩ := resolveStagePin_user_fields user stage rec pu hres
  obtain ⟨_, huid⟩ := findUser_mem hu
  rcases pu with _ | u1
  · have hcall : confirmStagePin st uid wid stage pin = (.incorrectPin, st) := by
      unfold confirmStagePin
      simp only [hu, hres]
      unfold confirmWithPin
      rw [if_pos hne]
    rw [hcall]
    exact ⟨rfl, rfl, hu, rfl, rfl, fun _ => rfl⟩
  · have hcall : confirmStagePin st uid wid stage pin = (.incorrectPin, updateUser st u1) := by
      unfold confirmStagePin
      simp only [hu, hres]
      unfold confirmWithPin
      rw [if_pos hne]
    have hid1 : u1.id = uid := by
      rw [show u1.id = user.id from hid, huid]
    rw [hcall]
    refine ⟨rfl, rfl, findUser_updateUser hu hid1, hstat, hnot, fun hpn => by cases hpn⟩

/-- C3 counterexample: with no pin record for `tax` but the pin sitting
in a notification, confirming with the wrong pin still returns
IncorrectPin — yet the recovered record has been persisted, so
`activationPins` differs before and after the call. -/
theorem incorrect_pin_persists_recovery_cx :
    (confirmStagePin stC3 0 0 "tax" "9999").1 = ConfirmResult.incorrectPin ∧
    (findUser stC3 0).map (fun u => alookup u.activationPins "tax") = some none ∧
    (findUser (confirmStagePin stC3 0 0 "tax" "9999").2 0).map
        (fun u => alookup u.activationPins "tax") =
      some (some { pin := "1234", set := true, discoveredFromNotification := true }) := by
  decide

/-- C3 witness: with the record already set, a wrong pin returns
IncorrectPin and the store is bit-for-bit unchanged. -/
theorem confirmStagePin_incorrect_pin_effects_witness :
    (confirmStagePin stC3w 0 0 "tax" "9999").1 = ConfirmResult.incorrectPin ∧
    (confirmStagePin stC3w 0 0 "tax" "9999").2 = stC3w := by
  have h := confirmStagePin_incorrect_pin_effects stC3w 0 0 "tax" "9999" userC3w
      (pinRec "1234") none (by decide) (by decide) (by decide)
  exact ⟨h.1, h.2.2.2.2.2 rfl⟩

/-- C4: a successful confirmStagePin prices the reported next stage as
a pure function of that stage and the caller's stored balance — the tax
fee is `round(balance*0.01, 2)`, insurance 500, verification 1000,
security 2000, and 0 in every other case (including no successor). -/
theorem confirmStagePin_fee_policy (st : St) (uid wid : Nat) (stage pin : String)
    (ns : Option String) (a : Rat) (user : User)
    (hu : findUser st uid = some user)
    (hok : (confirmStagePin st uid wid stage pin).1 = .ok ns a) :
    a = feeFor ns user.balance ∧
    (ns = some "tax" → a = specRound2 (user.balance * (1 / 100))) ∧
    (ns = some "insurance" → a = 500) ∧
    (ns = some "verification" → a = 1000) ∧
    (ns = some "security" → a = 2000) ∧
    (ns ≠ some "tax" → ns ≠ some "insurance" → ns ≠ some "verification" →
      ns ≠ some "security" → a = 0) := by
  obtain ⟨_, h2, _⟩ := confirmStagePin_ok_spec st uid wid stage pin ns a user hu hok
  have htax : ∀ b : Rat, taxFee b = specRound2 (b * (1 / 100)) := fun b => rfl
  refine ⟨h2, ?_, ?_, ?_, ?_, ?_⟩
  · intro hns; rw [h2, hns]; simp only [feeFor, if_pos rfl]; exact htax user.balance
  · intro hns; rw [h2, hns]; simp [feeFor]
  · intro hns; rw [h2, hns]; simp [feeFor]
  · intro hns; rw [h2, hns]; simp [feeFor]
  · intro h1 h3 h4 h5; rw [h2]; simp [feeFor, h1, h3, h4, h5]

/-- C4 witness: at balance 10000, confirming `activation` reports next
stage `tax` with amount 100 = round(10000*0.01, 2). -/
theorem confirmStagePin_fee_policy_witness :
    (confirmStagePin stC4 0 0 "activation" "1234").1 = ConfirmResult.ok (some "tax") 100 ∧
    (100 : Rat) = feeFor (some "tax") 10000 ∧
    (100 : Rat) = specRound2 (10000 * (1 / 100)) := by
  have hok : (confirmStagePin stC4 0 0 "activation" "1234").1 =
      ConfirmResult.ok (some "tax") 100 := by
    have h : (confirmStagePin stC4 0 0 "activation" "1234").1 =
        ConfirmResult.ok (some "tax") (taxFee 10000) := rfl
    rw [h, taxFee_ten_thousand]
  have h := confirmStagePin_fee_policy stC4 0 0 "activation" "1234" (some "tax") 100
      userC4 (by decide) hok
  exact ⟨hok, h.1, h.2.1 rfl⟩

/-- C5: when the caller's most recent withdrawal is non-terminal (and
the balance/timer preconditions of the handler pass), createPreview
returns that withdrawal's id and snapshot unchanged and creates no
record — the store is returned as-is — so a second call returns the
identical result. -/
theorem createPreview_idempotent_resume (st : St) (uid : Nat) (method details : String)
    (user : User) (latest : Withdrawal)
    (hu : findUser st uid = some user)
    (hb : ¬ user.balance < 1)
    (ht : user.timerActive = true)
    (hl : latestWithdrawal st uid = some latest)
    (hnt : nonTerminal latest = true) :
    createPreview st uid method details =
      (.resumed latest.id latest.amount latest.method latest.details latest.stage latest.status,
       st) ∧
    createPreview ((createPreview st uid method details).2) uid method details =
      createPreview st uid method details := by
  have h1 : createPreview st uid method details =
      (.resumed latest.id latest.amount latest.method latest.details latest.stage latest.status,
       st) := by
    unfold createPreview
    simp only [hu]
    rw [if_neg hb]
    simp [ht, hl, hnt]
  refine ⟨h1, ?_⟩
  rw [h1]
  exact h1

/-- C5 witness: with an in-progress withdrawal at `tax`, create-preview
resumes it and leaves the store unchanged, so the repeated call agrees. -/
theorem createPreview_idempotent_resume_witness :
    createPreview stC5 0 "crypto" "w" =
      (PreviewResult.resumed 0 10000 "crypto" "w" "tax" "pending_activation", stC5) ∧
    createPreview ((createPreview stC5 0 "crypto" "w").2) 0 "crypto" "w" =
      createPreview stC5 0 "crypto" "w" := by
  have h := createPreview_idempotent_resume stC5 0 "crypto" "w" userC4 wdC3
      (by decide) (by decide) (by decide) (by decide) (by decide)
  exact ⟨h.1, h.2⟩

/-- After-recovery behaviour of confirmStagePin, shared machinery: the
persisted user's pins survive into the final store, and the comparison
runs against the recovered record. -/
theorem confirmStagePin_after_recover (st : St) (uid wid : Nat) (stage pin : String)
    (user u1 : User) (rec : PinRecord)
    (hu : findUser st uid = some user)
    (hres2 : resolveStagePin user stage = some (rec, some u1))
    (hid1 : u1.id = uid) :
    (∀ u', findUser (confirmStagePin st uid wid stage pin).2 uid = some u' →
      u'.activationPins = u1.activationPins) ∧
    (rec.pin ≠ pin → (confirmStagePin st uid wid stage pin).1 = .incorrectPin) ∧
    (rec.pin = pin → (confirmStagePin st uid wid stage pin).1 =
      .ok (stageSuccessor stage) (feeFor (stageSuccessor stage) u1.balance)) := by
  have hcall : confirmStagePin st uid wid stage pin =
      confirmWithPin (updateUser st u1) u1 uid stage pin rec := by
    unfold confirmStagePin
    simp only [hu, hres2]
  by_cases hne : rec.pin ≠ pin
  · have hres' : confirmWithPin (updateUser st u1) u1 uid stage pin rec =
        (.incorrectPin, updateUser st u1) := by
      unfold confirmWithPin
      rw [if_pos hne]
    rw [hcall, hres']
    refine ⟨?_, fun _ => rfl, fun hp => absurd hp hne⟩
    intro u' hu'
    rw [findUser_updateUser hu hid1] at hu'
    injection hu' with e
    rw [← e]
  · have hres' : confirmWithPin (updateUser st u1) u1 uid stage pin rec =
        (.ok (stageSuccessor stage) (feeFor (stageSuccessor stage) u1.balance),
         confirmAdvance (updateUser (updateUser st u1) (confirmSuccessUser u1 stage)) uid
           (stageSuccessor stage)) := by
      unfold confirmWithPin
      rw [if_neg hne]
    rw [hcall, hres']
    refine ⟨?_, fun hc => absurd hc hne, fun _ => rfl⟩
    intro u' hu'
    rw [show ((ConfirmResult.ok (stageSuccessor stage)
          (feeFor (stageSuccessor stage) u1.balance),
        confirmAdvance (updateUser (updateUser st u1) (confirmSuccessUser u1 stage)) uid
          (stageSuccessor stage))).2 =
        confirmAdvance (updateUser (updateUser st u1) (confirmSuccessUser u1 stage)) uid
          (stageSuccessor stage) from rfl,
      findUser_confirmAdvance] at hu'
    rw [@findUser_updateUser (updateUser st u1) uid u1 (confirmSuccessUser u1 stage)
        (findUser_updateUser hu hid1) hid1] at hu'
    injection hu' with e
    rw [← e]
    exact rfl

/-- C6: when the stage's pin record is absent or unset, the
notifications are mined most-recent-first with the stage/pin regex: no
match fails with NoPinSet and leaves the store unchanged; a match is
persisted as the stage's record with `discoveredFromNotification =
true` and the submitted pin is compared against the recovered digits. -/
theorem confirmStagePin_fallback_recovery (st : St) (uid wid : Nat)
    (stage pin : String) (user : User)
    (hu : findUser st uid = some user)
    (hunset : pinUnset user stage = true) :
    (findPinFromNotifications user.notifications stage = none →
      confirmStagePin st uid wid stage pin = (.noPinSet, st)) ∧
    (∀ d, findPinFromNotifications user.notifications stage = some d →
      (∀ u', findUser (confirmStagePin st uid wid stage pin).2 uid = some u' →
        alookup u'.activationPins stage =
          some { pin := d, set := true, discoveredFromNotification := true }) ∧
      (pin ≠ d → (confirmStagePin st uid wid stage pin).1 = .incorrectPin) ∧
      (pin = d → (confirmStagePin st uid wid stage pin).1 =
        .ok (stageSuccessor stage) (feeFor (stageSuccessor stage) user.balance))) := by
  have hres : resolveStagePin user stage =
      (recoverPin user stage).map (fun p => (p.1, some p.2)) := by
    unfold pinUnset at hunset
    unfold resolveStagePin
    rcases ha : alookup user.activationPins stage with _ | r
    · simp only [ha]
    · simp only [ha] at hunset ⊢
      have hrs : r.set = false := by simpa using hunset
      simp [hrs]
  constructor
  · intro hf
    have hrec : recoverPin user stage = none := by
      unfold recoverPin
      simp only [hf]
    have hres2 : resolveStagePin user stage = none := by
      rw [hres, hrec]
      rfl
    unfold confirmStagePin
    simp only [hu, hres2]
  · intro d hf
    have hrec : recoverPin user stage =
        some ((⟨d, true, true⟩ : PinRecord),
          { user with
              activationPins := aset user.activationPins stage (⟨d, true, true⟩ : PinRecord) }) := by
      unfold recoverPin
      simp only [hf]
    have hres2 : resolveStagePin user stage =
        some ((⟨d, true, true⟩ : PinRecord),
          some { user with
              activationPins := aset user.activationPins stage (⟨d, true, true⟩ : PinRecord) }) := by
      rw [hres, hrec]
      rfl
    obtain ⟨_, huid⟩ := findUser_mem hu
    have hid1 : ({ user with
        activationPins := aset user.activationPins stage (⟨d, true, true⟩ : PinRecord) } : User).id =
        uid := huid
    obtain ⟨ha, hb2, hc⟩ :=
      confirmStagePin_after_recover st uid wid stage pin user
        { user with
            activationPins := aset user.activationPins stage (⟨d, true, true⟩ : PinRecord) }
        (⟨d, true, true⟩ : PinRecord) hu hres2 hid1
    refine ⟨?_, ?_, ?_⟩
    · intro u' hu'
      rw [ha u' hu']
      exact alookup_aset user.activationPins stage _
    · intro hpd
      exact hb2 (fun he => hpd he.symm)
    · intro hpd
      exact hc hpd.symm

/-- C6 witness: with no record for `tax` but the notification
"Your tax pin is: 1234", confirming with "1234" succeeds (next stage
`insurance`, amount 500) and the recovered record is persisted with
`discoveredFromNotification = true`. -/
theorem confirmStagePin_fallback_recovery_witness :
    (confirmStagePin stC6 0 0 "tax" "1234").1 = ConfirmResult.ok (some "insurance") 500 ∧
    (findUser (confirmStagePin stC6 0 0 "tax" "1234").2 0).map
        (fun u => alookup u.activationPins "tax") =
      some (some { pin := "1234", set := true, discoveredFromNotification := true }) := by
  have h := confirmStagePin_fallback_recovery stC6 0 0 "tax" "1234" userC3
      (by decide) (by decide)
  have h2 := h.2 "1234" (by decide)
  constructor
  · have := h2.2.2 rfl
    rw [this]
    rfl
  · rcases hfind : findUser (confirmStagePin stC6 0 0 "tax" "1234").2 0 with _ | u'
    · exact absurd hfind (by decide)
    · simp only [Option.map_some', Option.some.injEq]
      exact h2.1 u' hfind

/-- C7: a proceed call resumes the caller's latest in-progress
withdrawal when it differs from the requested id (store untouched,
tax fee pre-computed from the live balance); otherwise it 403s on
foreign ownership, and on success saves `status = pending_activation`
on the requested withdrawal and reports the tax fee when its stage is
`tax`. -/
theorem withdrawProceed_contract (st : St) (uid wid : Nat) :
    (∀ latest user, latestWithdrawal st uid = some latest →
      resumeApplies st uid wid = true →
      findUser st uid = some user →
      withdrawProceed st uid wid =
        (.resumed latest.id latest.stage latest.status
            (if latest.stage = "tax" then taxFee user.balance else 0), st)) ∧
    (resumeApplies st uid wid = false →
      (∀ w, findWithdrawal st wid = some w → w.user ≠ uid →
        withdrawProceed st uid wid = (.forbidden, st)) ∧
      (∀ w user, findWithdrawal st wid = some w → w.user = uid →
        findUser st uid = some user →
        withdrawProceed st uid wid =
          (.proceeded w.id w.stage "pending_activation"
              (if w.stage = "tax" then taxFee user.balance else 0),
           updateWithdrawal st { w with status := "pending_activation" }))) := by
  constructor
  · intro latest user hl hra hu
    have hcond : (!(latest.id == wid) && nonTerminal latest) = true := by
      unfold resumeApplies at hra
      rw [hl] at hra
      exact hra
    unfold withdrawProceed
    by_cases htax : latest.stage = "tax"
    · simp [hl, hcond, htax, hu]
    · simp [hl, hcond, htax]
  · intro hra
    have hmain : withdrawProceed st uid wid = withdrawProceedMain st uid wid := by
      unfold withdrawProceed
      rcases hl : latestWithdrawal st uid with _ | latest
      · simp only [hl]
      · have hcond : (!(latest.id == wid) && nonTerminal latest) = false := by
          unfold resumeApplies at hra
          rw [hl] at hra
          exact hra
        simp [hl, hcond]
    constructor
    · intro w hw hown
      rw [hmain]
      unfold withdrawProceedMain
      simp only [hw]
      rw [if_pos hown]
    · intro w user hw hown hu
      rw [hmain]
      unfold withdrawProceedMain
      simp only [hw]
      rw [if_neg (by simp [hown])]
      by_cases htax : w.stage = "tax"
      · simp [htax, findUser_updateWithdrawal, hu]
      · simp [htax]

/-- C7 witness: requesting the stale id 0 resumes the newer in-progress
withdrawal 1 untouched (tax fee 100 at balance 10000); requesting id 1
itself proceeds it to `pending_activation`. -/
theorem withdrawProceed_contract_witness :
    withdrawProceed stC7 0 0 = (ProceedResult.resumed 1 "tax" "preview" 100, stC7) ∧
    withdrawProceed stC7 0 1 =
      (ProceedResult.proceeded 1 "tax" "pending_activation" 100,
       updateWithdrawal stC7 { wdC7 with status := "pending_activation" }) := by
  constructor
  · have h := (withdrawProceed_contract stC7 0 0).1 wdC7 userC4 (by decide) (by decide) (by decide)
    rw [h]
    have e : (if wdC7.stage = "tax" then taxFee userC4.balance else 0) = 100 := by
      rw [if_pos (by decide : wdC7.stage = "tax")]
      exact taxFee_ten_thousand
    rw [e]
    exact rfl
  · have h := ((withdrawProceed_contract stC7 0 1).2 (by decide)).2 wdC7 userC4
      (by decide) (by decide) (by decide)
    rw [h]
    have e : (if wdC7.stage = "tax" then taxFee userC4.balance else 0) = 100 := by
      rw [if_pos (by decide : wdC7.stage = "tax")]
      exact taxFee_ten_thousand
    rw [e]
    exact rfl

/-- C8 (amended): withdrawal actions gate only on `timerActive` (plus
the balance floor) and never consult `timerEnds`; the expiry — zero the
balance, clear the timer — happens only on the dashboard read, when it
observes an active timer whose end is at or before the current time. -/
theorem timer_gate_and_dashboard_expiry (st : St) (uid : Nat) (method details : String)
    (user : User) (hu : findUser st uid = some user) :
    (¬ user.balance < 1 → user.timerActive = false →
      createPreview st uid method details = (.timerInactive, st)) ∧
    (∀ now t, user.timerActive = true → user.timerEnds = some t → t ≤ now →
      dashboard st uid now =
        (.ok 0 false none,
         updateUser st { user with balance := 0, timerActive := false, timerEnds := none })) := by
  constructor
  · intro hb ht
    unfold createPreview
    simp only [hu]
    rw [if_neg hb]
    simp [ht]
  · intro now t ht hte hle
    unfold dashboard
    simp only [hu]
    simp [ht, hte, hle]

/-- C8 counterexample: a user whose timer is active but ended at time 0
(before any current time such as 100) is still permitted to create a
withdrawal preview, and the read leaves the balance at 10000 — the
expiry is not applied on this path. -/
theorem expired_timer_still_permits_withdrawal_cx :
    userC8.timerActive = true ∧ userC8.timerEnds = some 0 ∧ (0 : Nat) ≤ 100 ∧
    (createPreview stC8 0 "crypto" "w").1 = PreviewResult.created 0 10000 "crypto" "w" ∧
    balanceOf (createPreview stC8 0 "crypto" "w").2 0 = some 10000 := by
  decide

/-- C8 witness: the timer-off gate rejects create-preview, and the
dashboard read at time 100 expires the timer that ended at 0. -/
theorem timer_gate_and_dashboard_expiry_witness :
    createPreview stC8w 0 "crypto" "w" = (PreviewResult.timerInactive, stC8w) ∧
    dashboard stC8 0 100 =
      (DashResult.ok 0 false none,
       updateUser stC8 { userC8 with balance := 0, timerActive := false, timerEnds := none }) := by
  have h := timer_gate_and_dashboard_expiry stC8w 0 "crypto" "w" userC8w (by decide)
  have h2 := timer_gate_and_dashboard_expiry stC8 0 "crypto" "w" userC8 (by decide)
  exact ⟨h.1 (by decide) rfl, h2.2 100 0 rfl rfl (by decide)⟩

/-- C9: a batched stage-payment ingest runs the card loop over exactly
`cardsCount` indices, skips an index with no card entry, keeps a card
whose upload failed with `file = none`, succeeds overall, and appends
exactly one submission to the withdrawal and one denormalised copy to
the user. -/
theorem submitStagePayment_batch (st : St) (uid : Nat) (req : StagePaymentReq)
    (w : Withdrawal) (user : User)
    (hw : findWithdrawal st req.withdrawalId = some w)
    (hown : w.user = uid)
    (hu : findUser st uid = some user)
    (hn : 0 < req.cardsCount) :
    (submitStagePayment st uid req).1 = .submitted ∧
    findWithdrawal (submitStagePayment st uid req).2 w.id =
      some { w with payments := w.payments ++ [mkSubmission req] } ∧
    findUser (submitStagePayment st uid req).2 uid =
      some { user with payments :=
        user.payments ++ [{ mkSubmission req with withdrawalRef := some w.id }] } ∧
    (mkSubmission req).cards = processCards req ∧
    processCards req = (List.range req.cardsCount).filterMap (cardAt req) ∧
    (∀ i, req.cards.getD i none = none → cardAt req i = none) ∧
    (∀ i cd, req.cards.getD i none = some cd → req.files.getD i none = some .failure →
      cardAt req i = some { giftCard := jsOr cd.giftCard "Steam",
                            pin := jsOr cd.pin "", file := none }) := by
  obtain ⟨hmemw, hidw⟩ := findWithdrawal_mem hw
  obtain ⟨_, huid⟩ := findUser_mem hu
  have hcall : submitStagePayment st uid req =
      (.submitted,
       updateUser (updateWithdrawal st { w with payments := w.payments ++ [mkSubmission req] })
         { user with payments :=
             user.payments ++ [{ mkSubmission req with withdrawalRef := some w.id }] }) := by
    unfold submitStagePayment
    simp only [hw]
    rw [if_neg (by simp [hown])]
    have hu1 : findUser (updateWithdrawal st { w with payments := w.payments ++ [mkSubmission req] })
        uid = some user := hu
    simp only [hu1]
  rw [hcall]
  refine ⟨rfl, ?_, ?_, ?_, rfl, ?_, ?_⟩
  · exact @findWithdrawal_updateWithdrawal st w
      { w with payments := w.payments ++ [mkSubmission req] } hmemw rfl
  · have hu1 : findUser (updateWithdrawal st { w with payments := w.payments ++ [mkSubmission req] })
        uid = some user := hu
    exact findUser_updateUser hu1 huid
  · unfold mkSubmission
    rw [if_pos hn]
  · intro i hi
    unfold cardAt
    simp only [hi]
  · intro i cd h1 h2
    unfold cardAt
    simp only [h1, h2]

/-- C9 witness: three declared cards — index 0 complete with a
successful upload, index 1 missing (skipped), index 2 kept with
`file = none` after its upload failed — submitted as one payment on the
withdrawal. -/
theorem submitStagePayment_batch_witness :
    (submitStagePayment stC9 0 reqC9).1 = SubmitResult.submitted ∧
    findWithdrawal (submitStagePayment stC9 0 reqC9).2 0 =
      some { wdC3 with payments := [mkSubmission reqC9] } ∧
    (mkSubmission reqC9).cards =
      [{ giftCard := "Steam", pin := "AAAA-BBBB", file := some "https://cdn.example/x.png" },
       { giftCard := "Razer", pin := "CCCC-DDDD", file := none }] ∧
    cardAt reqC9 1 = none := by
  have h := submitStagePayment_batch stC9 0 reqC9 wdC3 userC4
      (by decide) (by decide) (by decide) (by decide)
  exact ⟨h.1, h.2.1, by decide, h.2.2.2.2.2.1 1 (by decide)⟩

/-- C10: confirmStagePin is independent of the `withdrawalId` request
field — any two calls differing only there (including unowned or
nonexistent ids) return the same response and the same store, because
the handler never reads it and always acts on the caller's most recent
withdrawal. -/
theorem confirmStagePin_ignores_withdrawalId (st : St) (uid wid1 wid2 : Nat)
    (stage pin : String) :
    confirmStagePin st uid wid1 stage pin = confirmStagePin st uid wid2 stage pin := rfl

end ContestBk
